import Mathlib

/-!
Shallow embedding of the DomeAppPy camera pipeline (src/main.py).

The program coordinates a fleet of PTP-synchronized cameras: it waits
until exactly one device reports the Master clock role, schedules a
group action command at a fixed delta after a latched reference clock,
retrieves one buffer per device, copies each buffer into a FrameTask on
a shared queue, and a background worker persists queued tasks to disk
until a termination flag is cleared and the queue is drained.

Machine integers do not overflow in the modelled fragment (Python ints
are unbounded), so times and indices are Nat. Exceptions are modelled
by recording, per device, the first operation of the per-device
retrieval block that raises (failAt); the try/except in fire_cameras
then skips the rest of the block for that device. Image buffers are
modelled by a store (a list of byte lists) indexed by buffer ids, so
that BufferFactory.copy allocating a fresh buffer is observable.
-/

/-- PTP_DELTA from src/main.py line 12: 10000000 nanoseconds, i.e. 10 ms. -/
def PTP_DELTA : Nat := 10000000

/-- The operations of the per-device retrieval block of fire_cameras
(src/main.py lines 111-119), in program order: TransferStart execute,
get_buffer, TransferStop execute, DeviceSerialNumber read,
BufferFactory.copy, queue put, requeue_buffer. -/
inductive Step where
  | transferStart
  | getBuffer
  | transferStop
  | serialRead
  | copyBuf
  | enqueue
  | requeue
  deriving Repr, DecidableEq

/-- A camera device, as observed by one trigger cycle: its serial
number, the PTP clock value a latch would read, the id of the buffer
get_buffer would yield, and the first operation of the retrieval block
that raises an exception for it in this cycle (none when the whole
block succeeds). -/
structure Device where
  serial : String
  ptpTime : Nat
  bufId : Nat
  failAt : Option Step
  deriving Repr, DecidableEq

/-- The tuple put on buffer_queue (src/main.py line 117):
(BufferFactory.copy(buffer), batch, serial), with the copied buffer
represented by its id in the store. -/
structure FrameTask where
  bufId : Nat
  batch : Nat
  serial : String
  deriving Repr, DecidableEq

/-- The observable tag of a queued task: its batch index and serial. -/
def taskTag (t : FrameTask) : Nat × String :=
  (t.batch, t.serial)

/-- What the retrieval block did for one device: whether get_buffer
succeeded (a buffer was acquired) and whether requeue_buffer ran. -/
structure DevTrace where
  serial : String
  acquired : Bool
  requeued : Bool
  deriving Repr, DecidableEq

/-- State threaded through the retrieval loop of fire_cameras: the
buffer store, the shared queue contents, and the per-device traces. -/
structure FireState where
  heap : List (List Nat)
  tasks : List FrameTask
  traces : List DevTrace
  deriving Repr, DecidableEq

/-- Result of one fire_cameras call: the scheduled execution time
written to ActionCommandExecuteTime, the number of times
ActionCommandFireCommand was executed, and the final loop state. -/
structure FireResult where
  executeTime : Nat
  fires : Nat
  final : FireState
  deriving Repr, DecidableEq

/-- get_buffer succeeded for this device: no exception at or before
the get_buffer call. -/
def acquires (d : Device) : Bool :=
  match d.failAt with
  | some .transferStart => false
  | some .getBuffer => false
  | _ => true

/-- The queue put ran for this device: no exception strictly before
the enqueue, i.e. the whole block succeeded or only requeue raised. -/
def enqueueOK (d : Device) : Bool :=
  match d.failAt with
  | none => true
  | some .requeue => true
  | _ => false

/-- requeue_buffer ran to completion for this device: nothing in the
block raised. -/
def requeues (d : Device) : Bool :=
  match d.failAt with
  | none => true
  | _ => false

/-- BufferFactory.copy ran for this device (it precedes the put on the
same statement, so it also runs when the put or the requeue raises). -/
def copies (d : Device) : Bool :=
  match d.failAt with
  | none => true
  | some .enqueue => true
  | some .requeue => true
  | _ => false

/-- Trace the retrieval block leaves for one device. -/
def deviceTrace (d : Device) : DevTrace :=
  ⟨d.serial, acquires d, requeues d⟩

/-- One iteration of the retrieval loop of fire_cameras (src/main.py
lines 109-121): the try block runs TransferStart, get_buffer,
TransferStop, the serial read, BufferFactory.copy, the queue put, and
requeue_buffer in order; the first raising operation jumps to the
except handler, which only logs. Each branch below is the state at the
point the exception (if any) is caught. -/
def runDevice (batch : Nat) (d : Device) (st : FireState) : FireState :=
  if d.failAt = some .transferStart then
    { st with traces := st.traces ++ [⟨d.serial, false, false⟩] }
  else if d.failAt = some .getBuffer then
    { st with traces := st.traces ++ [⟨d.serial, false, false⟩] }
  else if d.failAt = some .transferStop then
    { st with traces := st.traces ++ [⟨d.serial, true, false⟩] }
  else if d.failAt = some .serialRead then
    { st with traces := st.traces ++ [⟨d.serial, true, false⟩] }
  else if d.failAt = some .copyBuf then
    { st with traces := st.traces ++ [⟨d.serial, true, false⟩] }
  else
    let newId := st.heap.length
    let heap2 := st.heap ++ [st.heap.getD d.bufId []]
    if d.failAt = some .enqueue then
      { st with heap := heap2, traces := st.traces ++ [⟨d.serial, true, false⟩] }
    else
      let tasks2 := st.tasks ++ [⟨newId, batch, d.serial⟩]
      if d.failAt = some .requeue then
        { heap := heap2, tasks := tasks2, traces := st.traces ++ [⟨d.serial, true, false⟩] }
      else
        { heap := heap2, tasks := tasks2, traces := st.traces ++ [⟨d.serial, true, true⟩] }

/-- fire_cameras (src/main.py lines 94-122). devices[0] raises
IndexError on an empty list, modelled by none. Otherwise: latch the
clock of the first device, set ActionCommandExecuteTime to the latched
value plus PTP_DELTA, execute the fire command once, then run the
retrieval block for every device in order. q0 is the queue content at
entry and heap0 the buffer store at entry. -/
def fireCameras (devices : List Device) (q0 : List FrameTask) (batch : Nat)
    (heap0 : List (List Nat)) : Option FireResult :=
  match devices with
  | [] => none
  | d0 :: _ =>
    some { executeTime := d0.ptpTime + PTP_DELTA
           fires := 1
           final := devices.foldl (fun st d => runDevice batch d st) ⟨heap0, q0, []⟩ }

/-- status.count for the Master role (src/main.py line 73). -/
def countMasters (status : List String) : Nat :=
  status.count "Master"

/-- The poll loop of wait_for_sync (src/main.py lines 68-76), fuelled.
sts k is the list of PtpStatus values read at poll k; k is the index of
the current poll and t the elapsed seconds when it happens. Each
iteration polls, counts Masters, sleeps 2 seconds, and the loop exits
when the count is exactly 1. On exit the poll index and the elapsed
time are returned; with insufficient fuel the result is none. -/
def waitForSyncAux (sts : Nat → List String) : Nat → Nat → Nat → Option (Nat × Nat)
  | 0, _, _ => none
  | fuel + 1, k, t =>
    if countMasters (sts k) = 1 then some (k, t + 2)
    else waitForSyncAux sts fuel (k + 1) (t + 2)

/-- wait_for_sync started at poll 0, time 0. -/
def waitForSync (sts : Nat → List String) (fuel : Nat) : Option (Nat × Nat) :=
  waitForSyncAux sts fuel 0 0

/-- Python format spec 0w for a Nat: pad with leading zeros to width
w, never truncating. -/
def zeroPad (w : Nat) (n : Nat) : String :=
  let s := toString n
  if s.length < w then String.mk (List.replicate (w - s.length) '0') ++ s else s

/-- The f-string of writer.save (src/main.py line 139):
images/<sessionID>/Scene_<batch padded to 3>/cam_<serial>.raw. -/
def savePath (sessionID : String) (batch : Nat) (serial : String) : String :=
  "images/" ++ sessionID ++ "/Scene_" ++ zeroPad 3 batch ++ "/cam_" ++ serial ++ ".raw"

/-- Path a queued task is persisted to, for the session sessionID. -/
def taskPath (sessionID : String) (t : FrameTask) : String :=
  savePath sessionID t.batch t.serial

/-- Program points of save_image_buffers (src/main.py lines 125-143):
about to test the outer while condition, about to test the inner while
condition, and about to sleep. -/
inductive WPC where
  | outerCheck
  | innerCheck
  | sleep
  deriving Repr, DecidableEq

/-- State of the persistence worker: program point, queue contents,
the to_do flag, the paths saved so far (in order), whether the loop
exited normally, and whether writer.save raised (killing the loop). -/
structure WState where
  pc : WPC
  queue : List FrameTask
  toDo : Bool
  saved : List String
  finished : Bool
  crashed : Bool
  deriving Repr, DecidableEq

/-- One step of save_image_buffers for session sid, where sf t = true
means writer.save raises on task t. Outer check: while to_do.value or
not queue.empty. Inner check: while not queue.empty, get a task and
save it; an uncaught save error crashes the worker with the rest of
the queue unprocessed. Sleep: time.sleep(1) then recheck. -/
def workerStep (sid : String) (sf : FrameTask → Bool) (s : WState) : WState :=
  match s.pc with
  | .outerCheck =>
    if s.toDo || !s.queue.isEmpty then { s with pc := .innerCheck }
    else { s with finished := true }
  | .innerCheck =>
    match s.queue with
    | [] => { s with pc := .sleep }
    | t :: rest =>
      if sf t then { s with queue := rest, crashed := true }
      else { s with queue := rest, saved := s.saved ++ [taskPath sid t] }
  | .sleep => { s with pc := .outerCheck }

/-- Run the worker for a bounded number of steps; a finished or
crashed worker takes no further steps. -/
def workerRun (sid : String) (sf : FrameTask → Bool) : Nat → WState → WState
  | 0, s => s
  | fuel + 1, s =>
    if s.finished || s.crashed then s
    else workerRun sid sf fuel (workerStep sid sf s)

/-- The interactive loop of the orchestrator (src/main.py lines
187-190): starting from the given batch counter, each input other than
q triggers one fire_cameras call with the current counter and then
increments it; the list of batch arguments passed is returned. -/
def mainBatches (inputs : List String) (batch : Nat) : List Nat :=
  match inputs with
  | [] => []
  | i :: rest => if i = "q" then [] else batch :: mainBatches rest (batch + 1)

/-! ### Helper lemmas about the retrieval loop -/

lemma runDevice_eq (batch : Nat) (d : Device) (st : FireState) :
    runDevice batch d st =
      { heap := st.heap ++ (if copies d then [st.heap.getD d.bufId []] else []),
        tasks := st.tasks ++
          (if enqueueOK d then [⟨st.heap.length, batch, d.serial⟩] else []),
        traces := st.traces ++ [deviceTrace d] } := by
  cases h : d.failAt with
  | none => simp [runDevice, copies, enqueueOK, deviceTrace, acquires, requeues, h]
  | some s =>
    cases s <;> simp [runDevice, copies, enqueueOK, deviceTrace, acquires, requeues, h]

lemma fireCameras_final (devs : List Device) (q0 : List FrameTask) (batch : Nat)
    (heap0 : List (List Nat)) (r : FireResult)
    (h : fireCameras devs q0 batch heap0 = some r) :
    r.final = devs.foldl (fun st d => runDevice batch d st) ⟨heap0, q0, []⟩ := by
  cases devs with
  | nil => simp [fireCameras] at h
  | cons d0 ds =>
    simp only [fireCameras, Option.some.injEq] at h
    rw [← h]

lemma fireFold_traces (batch : Nat) (devs : List Device) :
    ∀ st : FireState,
      (devs.foldl (fun s d => runDevice batch d s) st).traces =
        st.traces ++ devs.map deviceTrace := by
  induction devs with
  | nil => intro st; simp
  | cons d ds ih =>
    intro st
    rw [List.foldl_cons]
    show (ds.foldl (fun s d => runDevice batch d s) (runDevice batch d st)).traces = _
    rw [ih, runDevice_eq]
    simp

lemma fireFold_tasks_tag (batch : Nat) (devs : List Device) :
    ∀ st : FireState,
      (devs.foldl (fun s d => runDevice batch d s) st).tasks.map taskTag =
        st.tasks.map taskTag ++
          (devs.filter enqueueOK).map (fun d => (batch, d.serial)) := by
  induction devs with
  | nil => intro st; simp
  | cons d ds ih =>
    intro st
    rw [List.foldl_cons]
    show (ds.foldl (fun s d => runDevice batch d s) (runDevice batch d st)).tasks.map taskTag = _
    rw [ih, runDevice_eq]
    cases hd : enqueueOK d <;>
      simp [List.filter_cons, hd, taskTag, List.append_assoc]

lemma fireFold_heap_le (batch : Nat) (devs : List Device) :
    ∀ st : FireState,
      st.heap.length ≤ (devs.foldl (fun s d => runDevice batch d s) st).heap.length := by
  induction devs with
  | nil => intro st; exact Nat.le_refl _
  | cons d ds ih =>
    intro st
    rw [List.foldl_cons]
    refine Nat.le_trans ?_ (ih (runDevice batch d st))
    rw [runDevice_eq]
    simp

lemma fireFold_tasks_mem (batch : Nat) (devs : List Device) :
    ∀ (st : FireState) (t : FrameTask),
      t ∈ (devs.foldl (fun s d => runDevice batch d s) st).tasks →
        t ∈ st.tasks ∨ (st.heap.length ≤ t.bufId ∧ t.batch = batch) := by
  induction devs with
  | nil => intro st t ht; exact Or.inl ht
  | cons d ds ih =>
    intro st t ht
    rw [List.foldl_cons] at ht
    rcases ih (runDevice batch d st) t ht with h1 | ⟨h2, h3⟩
    · rw [runDevice_eq] at h1
      simp only [List.mem_append] at h1
      rcases h1 with h1 | h1
      · exact Or.inl h1
      · cases hd : enqueueOK d with
        | false => rw [hd] at h1; simp at h1
        | true =>
          rw [hd] at h1
          simp only [if_true, List.mem_singleton] at h1
          subst h1
          exact Or.inr ⟨Nat.le_refl _, rfl⟩
    · refine Or.inr ⟨?_, h3⟩
      refine Nat.le_trans ?_ h2
      rw [runDevice_eq]
      simp

/-! ### Claims about fire_cameras -/

/-- Claim C1, counterexample: one device (serial C) successfully
completes buffer retrieval (get_buffer returns, acquires = true) but
the subsequent DeviceSerialNumber read raises, so the except handler is
entered before the queue put: K = 1 device retrieves, yet 0 FrameTasks
are enqueued, contradicting the claim that exactly K are enqueued. -/
theorem claim_C1_counterexample :
    fireCameras [⟨"C", 0, 0, some Step.serialRead⟩] [] 0 [[9]] =
      some ⟨10000000, 1, ⟨[[9]], [], [⟨"C", true, false⟩]⟩⟩ ∧
    ([⟨"C", 0, 0, some Step.serialRead⟩].filter acquires).length = 1 ∧
    ¬ ((FireState.mk [[9]] [] [⟨"C", true, false⟩]).tasks.length =
        ([] : List FrameTask).length +
          ([⟨"C", 0, 0, some Step.serialRead⟩].filter acquires).length) := by
  decide

/-- Claim C1 (amended): in one fire_cameras cycle, exactly K FrameTasks
are enqueued where K counts the devices whose whole per-device block up
to and including the queue put succeeds (a device that retrieves a
buffer but then fails at transfer stop, serial read, or copy enqueues
nothing); each enqueued task carries the batch index passed in and the
serial of its own device, in device order. -/
theorem claim_C1_amended (devs : List Device) (q0 : List FrameTask) (batch : Nat)
    (heap0 : List (List Nat)) (r : FireResult)
    (h : fireCameras devs q0 batch heap0 = some r) :
    r.final.tasks.map taskTag =
      q0.map taskTag ++ (devs.filter enqueueOK).map (fun d => (batch, d.serial)) ∧
    r.final.tasks.length = q0.length + (devs.filter enqueueOK).length := by
  have hfin := fireCameras_final devs q0 batch heap0 r h
  have hm := fireFold_tasks_tag batch devs ⟨heap0, q0, []⟩
  constructor
  · rw [hfin, hm]
  · have hl := congrArg List.length hm
    simp only [List.length_map, List.length_append] at hl
    rw [hfin]
    exact hl

theorem claim_C1_amended_witness :
    fireCameras [⟨"A", 0, 0, none⟩, ⟨"B", 0, 1, some Step.getBuffer⟩] [] 3 [[1], [2]] =
      some ⟨10000000, 1, ⟨[[1], [2], [1]], [⟨2, 3, "A"⟩],
        [⟨"A", true, true⟩, ⟨"B", false, false⟩]⟩⟩ ∧
    ((FireResult.mk 10000000 1
        ⟨[[1], [2], [1]], [⟨2, 3, "A"⟩],
          [⟨"A", true, true⟩, ⟨"B", false, false⟩]⟩).final.tasks.map taskTag =
      ([] : List FrameTask).map taskTag ++
        ([⟨"A", 0, 0, none⟩, ⟨"B", 0, 1, some Step.getBuffer⟩].filter enqueueOK).map
          (fun d => (3, d.serial)) ∧
     (FireResult.mk 10000000 1
        ⟨[[1], [2], [1]], [⟨2, 3, "A"⟩],
          [⟨"A", true, true⟩, ⟨"B", false, false⟩]⟩).final.tasks.length =
      ([] : List FrameTask).length +
        ([⟨"A", 0, 0, none⟩, ⟨"B", 0, 1, some Step.getBuffer⟩].filter enqueueOK).length) :=
  ⟨by decide,
   claim_C1_amended [⟨"A", 0, 0, none⟩, ⟨"B", 0, 1, some Step.getBuffer⟩] [] 3 [[1], [2]]
     ⟨10000000, 1, ⟨[[1], [2], [1]], [⟨2, 3, "A"⟩],
       [⟨"A", true, true⟩, ⟨"B", false, false⟩]⟩⟩ (by decide)⟩

/-- Claim C4, code-bug evaluation: a device whose TransferStop raises
after get_buffer succeeded has acquired a buffer (acquires = true,
trace.acquired = true) yet requeue_buffer never runs for it
(trace.requeued = false), because requeue_buffer sits inside the try
block after the put and the exception skips it. The spec requires the
buffer to be returned on every exit path, so the code leaks the buffer
on this path. -/
theorem claim_C4_eval :
    fireCameras [⟨"A", 5, 0, some Step.transferStop⟩] [] 0 [[7]] =
      some ⟨10000005, 1, ⟨[[7]], [], [⟨"A", true, false⟩]⟩⟩ ∧
    acquires ⟨"A", 5, 0, some Step.transferStop⟩ = true ∧
    requeues ⟨"A", 5, 0, some Step.transferStop⟩ = false := by
  decide

/-- Claim C5: fire_cameras latches the clock of the first device in
the list, sets the scheduled execution time to exactly that latched
value plus PTP_DELTA, a fixed 10 ms (10 * 1000000 ns) margin, and
issues the group fire command once; the reference device (head of the
list) and the margin are the same for every batch. -/
theorem claim_C5_schedule (d : Device) (ds : List Device) (q0 : List FrameTask)
    (batch : Nat) (heap0 : List (List Nat)) (r : FireResult)
    (h : fireCameras (d :: ds) q0 batch heap0 = some r) :
    r.executeTime = d.ptpTime + PTP_DELTA ∧ r.fires = 1 ∧ PTP_DELTA = 10 * 1000000 := by
  simp only [fireCameras, Option.some.injEq] at h
  rw [← h]
  exact ⟨rfl, rfl, by decide⟩

theorem claim_C5_schedule_witness :
    fireCameras [⟨"A", 100, 0, none⟩] [] 0 [[]] =
      some ⟨10000100, 1, ⟨[[], []], [⟨1, 0, "A"⟩], [⟨"A", true, true⟩]⟩⟩ ∧
    ((FireResult.mk 10000100 1
        ⟨[[], []], [⟨1, 0, "A"⟩], [⟨"A", true, true⟩]⟩).executeTime =
      (Device.mk "A" 100 0 none).ptpTime + PTP_DELTA ∧
     (FireResult.mk 10000100 1
        ⟨[[], []], [⟨1, 0, "A"⟩], [⟨"A", true, true⟩]⟩).fires = 1 ∧
     PTP_DELTA = 10 * 1000000) :=
  ⟨by decide,
   claim_C5_schedule ⟨"A", 100, 0, none⟩ [] [] 0 [[]]
     ⟨10000100, 1, ⟨[[], []], [⟨1, 0, "A"⟩], [⟨"A", true, true⟩]⟩⟩ (by decide)⟩

/-- Claim C7: a per-device failure anywhere in the retrieval block of
one device (enqueueOK bad = false covers timeout and transfer errors)
is caught: fire_cameras still returns (never aborts), every device
before and after the failing one is attempted exactly once (one trace
per device, in order, so no retry), and the tasks enqueued are exactly
those of the other devices that succeed: a partial batch. -/
theorem claim_C7_isolation (pre : List Device) (bad : Device) (post : List Device)
    (q0 : List FrameTask) (batch : Nat) (heap0 : List (List Nat))
    (hbad : enqueueOK bad = false) :
    (fireCameras (pre ++ bad :: post) q0 batch heap0).isSome = true ∧
    ∀ r, fireCameras (pre ++ bad :: post) q0 batch heap0 = some r →
      r.final.traces = (pre ++ bad :: post).map deviceTrace ∧
      r.final.tasks.map taskTag =
        q0.map taskTag ++
          ((pre.filter enqueueOK).map (fun d => (batch, d.serial)) ++
            (post.filter enqueueOK).map (fun d => (batch, d.serial))) := by
  constructor
  · cases pre with
    | nil => simp [fireCameras]
    | cons p ps => simp [fireCameras]
  · intro r h
    have hfin := fireCameras_final (pre ++ bad :: post) q0 batch heap0 r h
    constructor
    · rw [hfin, fireFold_traces]
      simp
    · rw [hfin, fireFold_tasks_tag]
      simp [List.filter_append, List.filter_cons, hbad]

theorem claim_C7_isolation_witness :
    (fireCameras (([] : List Device) ++ (⟨"B", 0, 0, some Step.transferStart⟩ : Device) ::
        [⟨"C", 7, 0, none⟩]) [] 2 [[1]]).isSome = true ∧
    ((FireResult.mk 10000000 1
        ⟨[[1], [1]], [⟨1, 2, "C"⟩],
          [⟨"B", false, false⟩, ⟨"C", true, true⟩]⟩).final.traces =
      (([] : List Device) ++ (⟨"B", 0, 0, some Step.transferStart⟩ : Device) ::
        [⟨"C", 7, 0, none⟩]).map deviceTrace ∧
     (FireResult.mk 10000000 1
        ⟨[[1], [1]], [⟨1, 2, "C"⟩],
          [⟨"B", false, false⟩, ⟨"C", true, true⟩]⟩).final.tasks.map taskTag =
      ([] : List FrameTask).map taskTag ++
        ((([] : List Device).filter enqueueOK).map (fun d => (2, d.serial)) ++
          ([⟨"C", 7, 0, none⟩].filter enqueueOK).map (fun d => (2, d.serial)))) :=
  ⟨(claim_C7_isolation [] ⟨"B", 0, 0, some Step.transferStart⟩ [⟨"C", 7, 0, none⟩]
      [] 2 [[1]] (by decide)).1,
   (claim_C7_isolation [] ⟨"B", 0, 0, some Step.transferStart⟩ [⟨"C", 7, 0, none⟩]
      [] 2 [[1]] (by decide)).2
     ⟨10000000, 1, ⟨[[1], [1]], [⟨1, 2, "C"⟩],
       [⟨"B", false, false⟩, ⟨"C", true, true⟩]⟩⟩ (by decide)⟩

/-- Claim C8: every FrameTask enqueued by a fire_cameras cycle holds a
buffer freshly allocated by BufferFactory.copy (its id is outside the
store that existed at entry, hence distinct from every device-side
buffer id), so mutating the store at any requeued device buffer leaves
the content of the task buffer unchanged: the pipeline retains no
reference to the buffer that was returned to the device. -/
theorem claim_C8_copy (devs : List Device) (batch : Nat) (heap0 : List (List Nat))
    (r : FireResult) (h : fireCameras devs [] batch heap0 = some r)
    (hvalid : ∀ d ∈ devs, d.bufId < heap0.length) :
    ∀ t ∈ r.final.tasks, heap0.length ≤ t.bufId ∧
      ∀ d ∈ devs, t.bufId ≠ d.bufId ∧
        ∀ v, (r.final.heap.set d.bufId v).getD t.bufId [] =
          r.final.heap.getD t.bufId [] := by
  intro t ht
  have hfin := fireCameras_final devs [] batch heap0 r h
  rw [hfin] at ht
  rcases fireFold_tasks_mem batch devs ⟨heap0, [], []⟩ t ht with h1 | ⟨h2, _⟩
  · simp at h1
  · have h2' : heap0.length ≤ t.bufId := h2
    refine ⟨h2', ?_⟩
    intro d hd
    have hlt := hvalid d hd
    have hne : t.bufId ≠ d.bufId := by omega
    refine ⟨hne, ?_⟩
    intro v
    rw [List.getD_eq_getElem?_getD, List.getD_eq_getElem?_getD,
      List.getElem?_set_ne (by omega : d.bufId ≠ t.bufId)]

theorem claim_C8_copy_witness :
    fireCameras [⟨"A", 0, 0, none⟩] [] 0 [[3]] =
      some ⟨10000000, 1, ⟨[[3], [3]], [⟨1, 0, "A"⟩], [⟨"A", true, true⟩]⟩⟩ ∧
    ([[3]] : List (List Nat)).length ≤ (FrameTask.mk 1 0 "A").bufId ∧
    (FrameTask.mk 1 0 "A").bufId ≠ (Device.mk "A" 0 0 none).bufId ∧
    ((FireResult.mk 10000000 1
        ⟨[[3], [3]], [⟨1, 0, "A"⟩], [⟨"A", true, true⟩]⟩).final.heap.set
          (Device.mk "A" 0 0 none).bufId [9]).getD (FrameTask.mk 1 0 "A").bufId [] =
      (FireResult.mk 10000000 1
        ⟨[[3], [3]], [⟨1, 0, "A"⟩], [⟨"A", true, true⟩]⟩).final.heap.getD
          (FrameTask.mk 1 0 "A").bufId [] := by
  have happ := claim_C8_copy [⟨"A", 0, 0, none⟩] 0 [[3]]
    ⟨10000000, 1, ⟨[[3], [3]], [⟨1, 0, "A"⟩], [⟨"A", true, true⟩]⟩⟩
    (by decide) (by decide) ⟨1, 0, "A"⟩ (by decide)
  have hd := happ.2 ⟨"A", 0, 0, none⟩ (by decide)
  exact ⟨by decide, happ.1, hd.1, hd.2 [9]⟩

/-! ### Claims about the interactive loop -/

lemma mainBatches_eq (inputs : List String) :
    ∀ b : Nat, mainBatches inputs b =
      List.range' b ((inputs.takeWhile (fun i => i != "q")).length) := by
  induction inputs with
  | nil => intro b; rfl
  | cons i rest ih =>
    intro b
    by_cases hi : i = "q"
    · subst hi
      simp [mainBatches, List.takeWhile_cons]
    · simp only [mainBatches, if_neg hi, List.takeWhile_cons]
      have hb : (i != "q") = true := by simp [hi]
      rw [hb]
      simp only [if_true, List.length_cons, List.range'_succ]
      rw [ih (b + 1)]

/-- Claim C9: within one run of the interactive loop the batch index
passed to fire_cameras is 0 on the first trigger and increases by
exactly 1 on each further trigger until the first q input (the list of
passed indices is the range 0, 1, 2, ...); and every FrameTask a cycle
adds to the queue carries exactly the batch index of that cycle, so
tasks of a later cycle carry strictly larger batch indices than tasks
of an earlier cycle. -/
theorem claim_C9_batches :
    (∀ inputs : List String, mainBatches inputs 0 =
        List.range ((inputs.takeWhile (fun i => i != "q")).length)) ∧
    (∀ devs q0 b heap0 r, fireCameras devs q0 b heap0 = some r →
      ∀ t ∈ r.final.tasks, t ∉ q0 → t.batch = b) := by
  constructor
  · intro inputs
    rw [List.range_eq_range']
    exact mainBatches_eq inputs 0
  · intro devs q0 b heap0 r h t ht hnot
    rw [fireCameras_final devs q0 b heap0 r h] at ht
    rcases fireFold_tasks_mem b devs ⟨heap0, q0, []⟩ t ht with h1 | ⟨_, h2⟩
    · exact absurd h1 hnot
    · exact h2

theorem claim_C9_batches_witness :
    mainBatches ["", "", "q"] 0 =
      List.range (((["", "", "q"] : List String).takeWhile (fun i => i != "q")).length) ∧
    (FrameTask.mk 1 5 "A").batch = 5 :=
  ⟨claim_C9_batches.1 ["", "", "q"],
   claim_C9_batches.2 [⟨"A", 0, 0, none⟩] [] 5 [[4]]
     ⟨10000000, 1, ⟨[[4], [4]], [⟨1, 5, "A"⟩], [⟨"A", true, true⟩]⟩⟩ (by decide)
     ⟨1, 5, "A"⟩ (by decide) (by decide)⟩

/-! ### Claims about wait_for_sync -/

lemma waitForSyncAux_sound (sts : Nat → List String) :
    ∀ (fuel k t j u : Nat), waitForSyncAux sts fuel k t = some (j, u) →
      countMasters (sts j) = 1 ∧ k ≤ j ∧
      (∀ m, k ≤ m → m < j → countMasters (sts m) ≠ 1) ∧
      u = t + 2 * (j + 1 - k) := by
  intro fuel
  induction fuel with
  | zero => intro k t j u h; simp [waitForSyncAux] at h
  | succ n ih =>
    intro k t j u h
    by_cases hk : countMasters (sts k) = 1
    · simp only [waitForSyncAux, if_pos hk, Option.some.injEq, Prod.mk.injEq] at h
      obtain ⟨rfl, rfl⟩ := h
      exact ⟨hk, Nat.le_refl _, fun m hm1 hm2 => absurd hm2 (by omega), by omega⟩
    · simp only [waitForSyncAux, if_neg hk] at h
      obtain ⟨h1, h2, h3, h4⟩ := ih (k + 1) (t + 2) j u h
      refine ⟨h1, by omega, ?_, by omega⟩
      intro m hm1 hm2
      by_cases hmk : m = k
      · subst hmk; exact hk
      · exact h3 m (by omega) hm2

lemma waitForSyncAux_none (sts : Nat → List String)
    (hall : ∀ j, countMasters (sts j) ≠ 1) :
    ∀ (fuel k t : Nat), waitForSyncAux sts fuel k t = none := by
  intro fuel
  induction fuel with
  | zero => intro k t; rfl
  | succ n ih =>
    intro k t
    simp only [waitForSyncAux, if_neg (hall k)]
    exact ih (k + 1) (t + 2)

lemma waitForSyncAux_complete (sts : Nat → List String) :
    ∀ (d k t : Nat), countMasters (sts (k + d)) = 1 →
      (∀ m, k ≤ m → m < k + d → countMasters (sts m) ≠ 1) →
      waitForSyncAux sts (d + 1) k t = some (k + d, t + 2 * (d + 1)) := by
  intro d
  induction d with
  | zero =>
    intro k t h1 _
    have hk : countMasters (sts k) = 1 := by simpa using h1
    simp [waitForSyncAux, hk]
  | succ n ih =>
    intro k t h1 h2
    have hk : countMasters (sts k) ≠ 1 := h2 k (Nat.le_refl k) (by omega)
    rw [waitForSyncAux, if_neg hk]
    have he : k + 1 + n = k + (n + 1) := by omega
    have hrec := ih (k + 1) (t + 2) (by rw [he]; exact h1)
      (fun m hm1 hm2 => h2 m (by omega) (by omega))
    rw [hrec, he]
    have h6 : t + 2 + 2 * (n + 1) = t + 2 * (n + 1 + 1) := by omega
    rw [h6]

/-- Claim C3: wait_for_sync polls the device clock-role statuses at a
fixed 2-second interval (poll k happens 2k seconds in; a successful
return after poll j happens at 2(j+1) seconds, after the final sleep)
and returns exactly at the first poll where the number of devices
reporting Master equals 1; if that count differs from 1 on every poll
the loop never returns (none for every fuel). -/
theorem claim_C3_sync :
    (∀ (sts : Nat → List String) (fuel j t : Nat),
      waitForSync sts fuel = some (j, t) →
        countMasters (sts j) = 1 ∧ (∀ m, m < j → countMasters (sts m) ≠ 1) ∧
        t = 2 * (j + 1)) ∧
    (∀ (sts : Nat → List String) (fuel : Nat),
      (∀ j, countMasters (sts j) ≠ 1) → waitForSync sts fuel = none) ∧
    (∀ (sts : Nat → List String) (j : Nat),
      countMasters (sts j) = 1 → (∀ m, m < j → countMasters (sts m) ≠ 1) →
        waitForSync sts (j + 1) = some (j, 2 * (j + 1))) := by
  refine ⟨?_, ?_, ?_⟩
  · intro sts fuel j t h
    obtain ⟨h1, _, h3, h4⟩ := waitForSyncAux_sound sts fuel 0 0 j t h
    exact ⟨h1, fun m hm => h3 m (Nat.zero_le m) hm, by omega⟩
  · intro sts fuel hall
    exact waitForSyncAux_none sts hall fuel 0 0
  · intro sts j h1 h2
    have := waitForSyncAux_complete sts j 0 0 (by simpa using h1)
      (fun m hm1 hm2 => h2 m (by omega))
    simpa using this

theorem claim_C3_sync_witness :
    waitForSync (fun _ => ["Master"]) 1 = some (0, 2 * (0 + 1)) ∧
    waitForSync (fun _ => ["Slave", "Slave"]) 3 = none :=
  ⟨claim_C3_sync.2.2 (fun _ => ["Master"]) 0 (by decide)
     (fun m hm => absurd hm (Nat.not_lt_zero m)),
   claim_C3_sync.2.1 (fun _ => ["Slave", "Slave"]) 3
     (fun j => by show countMasters ["Slave", "Slave"] ≠ 1; decide)⟩

/-! ### Helper lemmas about the persistence worker -/

lemma workerRun_halt (sid : String) (sf : FrameTask → Bool) (s : WState)
    (h : (s.finished || s.crashed) = true) :
    ∀ n, workerRun sid sf n s = s := by
  intro n
  cases n with
  | zero => rfl
  | succ m => simp [workerRun, h]

lemma workerRun_succ (sid : String) (sf : FrameTask → Bool) (n : Nat) (s : WState)
    (h : (s.finished || s.crashed) = false) :
    workerRun sid sf (n + 1) s = workerRun sid sf n (workerStep sid sf s) := by
  simp [workerRun, h]

lemma workerRun_add (sid : String) (sf : FrameTask → Bool) :
    ∀ (m n : Nat) (s : WState),
      workerRun sid sf (m + n) s = workerRun sid sf n (workerRun sid sf m s) := by
  intro m
  induction m with
  | zero =>
    intro n s
    rw [Nat.zero_add]
    rfl
  | succ k ih =>
    intro n s
    cases hh : (s.finished || s.crashed) with
    | true => simp [workerRun_halt sid sf s hh]
    | false =>
      have h1 : k + 1 + n = (k + n) + 1 := by omega
      rw [h1, workerRun_succ sid sf (k + n) s hh, workerRun_succ sid sf k s hh,
        ih n (workerStep sid sf s)]

lemma drain_inner (sid : String) (sf : FrameTask → Bool) :
    ∀ (q : List FrameTask) (saved0 : List String),
      (∀ t ∈ q, sf t = false) →
      workerRun sid sf (q.length + 3) ⟨.innerCheck, q, false, saved0, false, false⟩ =
        ⟨.outerCheck, [], false, saved0 ++ q.map (taskPath sid), true, false⟩ := by
  intro q
  induction q with
  | nil =>
    intro saved0 _
    simp [workerRun, workerStep]
  | cons a q ih =>
    intro saved0 hq
    have ha : sf a = false := hq a (List.mem_cons_self a q)
    show workerRun sid sf ((q.length + 3) + 1)
      ⟨.innerCheck, a :: q, false, saved0, false, false⟩ = _
    rw [workerRun_succ sid sf (q.length + 3)
      ⟨.innerCheck, a :: q, false, saved0, false, false⟩ rfl]
    have hstep : workerStep sid sf ⟨.innerCheck, a :: q, false, saved0, false, false⟩ =
        ⟨.innerCheck, q, false, saved0 ++ [taskPath sid a], false, false⟩ := by
      simp [workerStep, ha]
    rw [hstep, ih (saved0 ++ [taskPath sid a]) (fun t ht => hq t (List.mem_cons_of_mem a ht))]
    simp

lemma drain_outer (sid : String) (sf : FrameTask → Bool) (q : List FrameTask)
    (saved0 : List String) (hq : ∀ t ∈ q, sf t = false) :
    workerRun sid sf (q.length + 4) ⟨.outerCheck, q, false, saved0, false, false⟩ =
      ⟨.outerCheck, [], false, saved0 ++ q.map (taskPath sid), true, false⟩ := by
  cases q with
  | nil =>
    simp [workerRun, workerStep]
  | cons a q' =>
    show workerRun sid sf (((a :: q').length + 3) + 1)
      ⟨.outerCheck, a :: q', false, saved0, false, false⟩ = _
    rw [workerRun_succ sid sf ((a :: q').length + 3)
      ⟨.outerCheck, a :: q', false, saved0, false, false⟩ rfl]
    have hstep : workerStep sid sf ⟨.outerCheck, a :: q', false, saved0, false, false⟩ =
        ⟨.innerCheck, a :: q', false, saved0, false, false⟩ := by
      simp [workerStep]
    rw [hstep]
    exact drain_inner sid sf (a :: q') saved0 hq

/-- Claim C2: once to_do is 0 and the producer makes no further
enqueue, save_image_buffers, from any of its program points, dequeues
and saves every FrameTask remaining in the queue, in FIFO order and
under the single session id, and then its loop exits (finished, queue
empty, nothing dropped). -/
theorem claim_C2_drain (sid : String) (sf : FrameTask → Bool) (pc : WPC)
    (q : List FrameTask) (saved0 : List String)
    (hsf : ∀ t ∈ q, sf t = false) :
    workerRun sid sf (q.length + 5) ⟨pc, q, false, saved0, false, false⟩ =
      ⟨.outerCheck, [], false, saved0 ++ q.map (taskPath sid), true, false⟩ := by
  cases pc with
  | outerCheck =>
    show workerRun sid sf ((q.length + 4) + 1) _ = _
    rw [workerRun_add sid sf (q.length + 4) 1, drain_outer sid sf q saved0 hsf]
    exact workerRun_halt sid sf
      ⟨.outerCheck, [], false, saved0 ++ q.map (taskPath sid), true, false⟩ rfl 1
  | innerCheck =>
    show workerRun sid sf ((q.length + 3) + 2) _ = _
    rw [workerRun_add sid sf (q.length + 3) 2, drain_inner sid sf q saved0 hsf]
    exact workerRun_halt sid sf
      ⟨.outerCheck, [], false, saved0 ++ q.map (taskPath sid), true, false⟩ rfl 2
  | sleep =>
    have h : q.length + 5 = 1 + (q.length + 4) := by omega
    rw [h, workerRun_add sid sf 1 (q.length + 4)]
    have hstep : workerRun sid sf 1 ⟨.sleep, q, false, saved0, false, false⟩ =
        ⟨.outerCheck, q, false, saved0, false, false⟩ := by
      simp [workerRun, workerStep]
    rw [hstep]
    exact drain_outer sid sf q saved0 hsf

theorem claim_C2_drain_witness :
    workerRun "S" (fun _ => false) (([⟨0, 1, "A"⟩] : List FrameTask).length + 5)
        ⟨.outerCheck, [⟨0, 1, "A"⟩], false, [], false, false⟩ =
      ⟨.outerCheck, [], false,
        [] ++ ([⟨0, 1, "A"⟩] : List FrameTask).map (taskPath "S"), true, false⟩ :=
  claim_C2_drain "S" (fun _ => false) .outerCheck [⟨0, 1, "A"⟩] [] (fun _ _ => rfl)

lemma crash_march (sid : String) (sf : FrameTask → Bool) (t : FrameTask)
    (post : List FrameTask) (b : Bool) (hcrash : sf t = true) :
    ∀ (pre : List FrameTask) (saved0 : List String),
      (∀ u ∈ pre, sf u = false) →
      workerRun sid sf (pre.length + 1)
          ⟨.innerCheck, pre ++ t :: post, b, saved0, false, false⟩ =
        ⟨.innerCheck, post, b, saved0 ++ pre.map (taskPath sid), false, true⟩ := by
  intro pre
  induction pre with
  | nil =>
    intro saved0 _
    simp [workerRun, workerStep, hcrash]
  | cons u pre' ih =>
    intro saved0 hpre
    have hu : sf u = false := hpre u (List.mem_cons_self u pre')
    show workerRun sid sf ((pre'.length + 1) + 1)
      ⟨.innerCheck, (u :: pre') ++ t :: post, b, saved0, false, false⟩ = _
    rw [workerRun_succ sid sf (pre'.length + 1)
      ⟨.innerCheck, (u :: pre') ++ t :: post, b, saved0, false, false⟩ rfl]
    have hstep : workerStep sid sf
        ⟨.innerCheck, (u :: pre') ++ t :: post, b, saved0, false, false⟩ =
        ⟨.innerCheck, pre' ++ t :: post, b, saved0 ++ [taskPath sid u], false, false⟩ := by
      simp [workerStep, hu]
    rw [hstep, ih (saved0 ++ [taskPath sid u]) (fun v hv => hpre v (List.mem_cons_of_mem u hv))]
    simp

/-- Claim C10 (implicit): save_image_buffers does not catch errors
from writer.save: on the first queued task t for which the save raises,
the worker loop dies with that exception (crashed, not finished)
regardless of the termination flag b; the tasks before t are the only
ones persisted, and the tasks after t remain in the queue and are never
persisted no matter how many further steps are taken. -/
theorem claim_C10_crash (sid : String) (sf : FrameTask → Bool) (pre : List FrameTask)
    (t : FrameTask) (post : List FrameTask) (saved0 : List String) (b : Bool) (n : Nat)
    (hcrash : sf t = true) (hpre : ∀ u ∈ pre, sf u = false) :
    workerRun sid sf (pre.length + 2 + n)
        ⟨.outerCheck, pre ++ t :: post, b, saved0, false, false⟩ =
      ⟨.innerCheck, post, b, saved0 ++ pre.map (taskPath sid), false, true⟩ := by
  have hsplit : pre.length + 2 + n = (1 + (pre.length + 1)) + n := by omega
  rw [hsplit, workerRun_add sid sf (1 + (pre.length + 1)) n,
    workerRun_add sid sf 1 (pre.length + 1)]
  have hne : ((pre ++ t :: post).isEmpty) = false := by cases pre <;> rfl
  have hstep1 : workerRun sid sf 1 ⟨.outerCheck, pre ++ t :: post, b, saved0, false, false⟩ =
      ⟨.innerCheck, pre ++ t :: post, b, saved0, false, false⟩ := by
    simp [workerRun, workerStep, hne]
  rw [hstep1, crash_march sid sf t post b hcrash pre saved0 hpre]
  exact workerRun_halt sid sf
    ⟨.innerCheck, post, b, saved0 ++ pre.map (taskPath sid), false, true⟩ rfl n

theorem claim_C10_crash_witness :
    workerRun "S" (fun u => u.bufId == 1)
        (([⟨0, 0, "A"⟩] : List FrameTask).length + 2 + 2)
        ⟨.outerCheck, [⟨0, 0, "A"⟩] ++ (⟨1, 0, "B"⟩ : FrameTask) :: [⟨2, 0, "C"⟩],
          true, [], false, false⟩ =
      ⟨.innerCheck, [⟨2, 0, "C"⟩], true,
        [] ++ ([⟨0, 0, "A"⟩] : List FrameTask).map (taskPath "S"), false, true⟩ :=
  claim_C10_crash "S" (fun u => u.bufId == 1) [⟨0, 0, "A"⟩] ⟨1, 0, "B"⟩ [⟨2, 0, "C"⟩]
    [] true 2 rfl (by decide)

/-- Claim C6: every persisted frame goes to
images/<SessionID>/Scene_<batch zero-padded to 3 digits>/cam_<serial>.raw
with the session id fixed for the whole run (the worker derives every
path from the one sessionID it computed at start); in particular batch
7, serial ABC123, session 20240101T000000 give exactly
images/20240101T000000/Scene_007/cam_ABC123.raw. -/
theorem claim_C6_path :
    (∀ (sid : String) (t : FrameTask),
      taskPath sid t =
        "images/" ++ sid ++ "/Scene_" ++ zeroPad 3 t.batch ++ "/cam_" ++ t.serial ++ ".raw") ∧
    taskPath "20240101T000000" ⟨0, 7, "ABC123"⟩ =
      "images/20240101T000000/Scene_007/cam_ABC123.raw" :=
  ⟨fun sid t => rfl, by decide⟩
